import Mathlib

/-!
Shallow embedding of the run_stories package (bmad-ralph-loop):
stream_parser.py, models.py, sprint_status.py, claude_session.py and the
orchestration loop of orchestrator.py, together with theorems settling the
frozen claims about them.

Conventions of the embedding:
* Python exceptions raised inside the per-line parser helpers are modelled
  with the Except monad; the outer try/except of parse_line catches them.
* JSON numbers are modelled as integers; fractional detail never
  influences control flow anywhere in the embedded code.
* The statuses read back from sprint-status.yaml, and the results of the
  per-phase subprocess sessions, are inputs of the orchestration-loop
  model (a StoryEnv), since they are produced by external processes.
-/

namespace RunStories

/-- models.py MarkerType: the protocol-marker vocabulary. -/
inductive MarkerType
  | HALT
  | CREATE_STORY_COMPLETE
  | DEV_STORY_COMPLETE
  | CODE_REVIEW_APPROVED
  | CODE_REVIEW_ISSUES
  | NO_BACKLOG_STORIES
  | NO_READY_STORIES
  deriving DecidableEq, Repr

/-- A decoded JSON value: the result of json.loads on one stream line. -/
inductive JVal
  | null
  | bool (b : Bool)
  | num (n : Int)
  | str (s : String)
  | arr (xs : List JVal)
  | obj (fields : List (String × JVal))

/-- Python exception kinds that the parser helpers can raise; parse_line
    catches all of them alike. -/
inductive PyErr
  | attributeError
  | typeError
  | valueError
  deriving DecidableEq, Repr

/-- dict.get(key, default) on a decoded JSON object. Decoded objects have
    unique keys (json.loads keeps the last duplicate), so first-match
    lookup is faithful. -/
def dictGet (fields : List (String × JVal)) (key : String) (dflt : JVal) : JVal :=
  (fields.lookup key).getD dflt

/-- dict.get(key) with default None, where a stored JSON null is also
    Python None: both yield none. -/
def pyGetOpt (fields : List (String × JVal)) (key : String) : Option JVal :=
  match fields.lookup key with
  | some JVal.null => none
  | some v => some v
  | none => none

/-- Python truthiness of a decoded value. -/
def pyTruthy : JVal → Bool
  | JVal.null => false
  | JVal.bool b => b
  | JVal.num n => n != 0
  | JVal.str s => s != ""
  | JVal.arr xs => !xs.isEmpty
  | JVal.obj fs => !fs.isEmpty

/-- str() of a decoded value. Container reprs are abbreviated: the
    embedded code only ever truncates and displays them, never inspects
    their text. -/
def pyStr : JVal → String
  | JVal.null => "None"
  | JVal.bool true => "True"
  | JVal.bool false => "False"
  | JVal.num n => toString n
  | JVal.str s => s
  | JVal.arr _ => "[...]"
  | JVal.obj _ => "\x7b...\x7d"

/-- float(v): numbers and booleans convert, numeric strings parse
    (modelled with integer literals), everything else raises. -/
def pyFloat : JVal → Except PyErr Int
  | JVal.num n => Except.ok n
  | JVal.bool b => Except.ok (if b then 1 else 0)
  | JVal.str s =>
      match s.toInt? with
      | some n => Except.ok n
      | none => Except.error PyErr.valueError
  | _ => Except.error PyErr.typeError

/-- Iterating a decoded value in a Python for-loop: lists yield elements,
    strings yield one-character strings, dicts yield their keys, and
    non-iterables raise TypeError. -/
def iterPy : JVal → Except PyErr (List JVal)
  | JVal.arr xs => Except.ok xs
  | JVal.str s => Except.ok (s.toList.map (fun c => JVal.str (String.singleton c)))
  | JVal.obj fs => Except.ok (fs.map (fun p => JVal.str p.1))
  | _ => Except.error PyErr.typeError

/-- models.py stream-event dataclasses, folded into one sum type. Fields
    that Python fills from dict.get without a type check keep the raw
    decoded value. -/
inductive StreamEvent
  | initEvent (model : JVal) (tools : List JVal) (permissionMode : JVal) (sessionId : JVal)
  | toolUseEvent (toolName : JVal) (inputSummary : String)
  | toolResultEvent (toolUseId : JVal) (contentSummary : String)
  | textEvent (text : JVal) (isThinking : Bool)
  | resultEvent (durationMs : JVal) (numTurns : JVal) (isError : JVal)
      (subtype : JVal) (costUsd : Option Int)
  | rateLimitEvent (status : JVal) (resetsAt : Option Int) (rateLimitType : JVal)
  | systemEvent (subtype : JVal)
  | markerEvent (markerType : MarkerType) (payload : String)
  | unknownEvent (rawData : JVal)

/-- The paired-tag vocabulary of _MARKER_PAIRED_RE, in alternation order. -/
def pairedTags : List (MarkerType × String) :=
  [(MarkerType.HALT, "HALT"),
   (MarkerType.CREATE_STORY_COMPLETE, "CREATE_STORY_COMPLETE"),
   (MarkerType.DEV_STORY_COMPLETE, "DEV_STORY_COMPLETE"),
   (MarkerType.CODE_REVIEW_APPROVED, "CODE_REVIEW_APPROVED"),
   (MarkerType.CODE_REVIEW_ISSUES, "CODE_REVIEW_ISSUES")]

/-- The self-closing-tag vocabulary of _MARKER_SELF_RE. -/
def selfTags : List (MarkerType × String) :=
  [(MarkerType.NO_BACKLOG_STORIES, "NO_BACKLOG_STORIES"),
   (MarkerType.NO_READY_STORIES, "NO_READY_STORIES")]

/-- Index of the first occurrence of a (non-empty) pattern in a character
    list, as regex search does for the literal closing tag. -/
def findSub (pat : List Char) : List Char → Option Nat
  | [] => if List.isPrefixOf pat [] then some 0 else none
  | c :: t =>
      if List.isPrefixOf pat (c :: t) then some 0
      else (findSub pat t).map (· + 1)

/-- Try the paired-marker alternatives at the current position: an opening
    tag followed (non-greedily, newlines included) by the matching closing
    tag. Returns the marker, its payload, and the remaining text. -/
def tryPairedTag (cs : List Char) : List (MarkerType × String) → Option (MarkerType × String × List Char)
  | [] => none
  | (mt, tag) :: rest =>
      let openT := ("<" ++ tag ++ ">").toList
      let closeT := ("</" ++ tag ++ ">").toList
      if List.isPrefixOf openT cs then
        let body := cs.drop openT.length
        match findSub closeT body with
        | some j => some (mt, String.mk (body.take j), body.drop (j + closeT.length))
        | none => tryPairedTag cs rest
      else tryPairedTag cs rest

/-- Try the self-closing-marker alternatives at the current position: the
    tag name, optional whitespace, then a slash-bracket close. -/
def trySelfTag (cs : List Char) : List (MarkerType × String) → Option (MarkerType × List Char)
  | [] => none
  | (mt, tag) :: rest =>
      let openT := ("<" ++ tag).toList
      if List.isPrefixOf openT cs then
        let afterWs := (cs.drop openT.length).dropWhile (fun c => c.isWhitespace)
        if List.isPrefixOf ['/', '>'] afterWs then some (mt, afterWs.drop 2)
        else trySelfTag cs rest
      else trySelfTag cs rest

/-- Left-to-right non-overlapping scan for paired markers (finditer over
    _MARKER_PAIRED_RE). Fuel bounds the scan; it is instantiated with the
    text length, which every step strictly decreases. -/
def scanPaired : Nat → List Char → List StreamEvent
  | 0, _ => []
  | _, [] => []
  | fuel + 1, c :: t =>
      match tryPairedTag (c :: t) pairedTags with
      | some (mt, payload, rest) => StreamEvent.markerEvent mt payload :: scanPaired fuel rest
      | none => scanPaired fuel t

/-- Left-to-right non-overlapping scan for self-closing markers (finditer
    over _MARKER_SELF_RE). -/
def scanSelf : Nat → List Char → List StreamEvent
  | 0, _ => []
  | _, [] => []
  | fuel + 1, c :: t =>
      match trySelfTag (c :: t) selfTags with
      | some (mt, rest) => StreamEvent.markerEvent mt "" :: scanSelf fuel rest
      | none => scanSelf fuel t

/-- stream_parser.py _detect_markers: all paired matches first, then all
    self-closing matches, each in text order. Every tag name the regexes
    can capture is in the marker vocabulary, so the ValueError guard of
    the source never fires. -/
def detect_markers (text : String) : List StreamEvent :=
  let cs := text.toList
  scanPaired cs.length cs ++ scanSelf cs.length cs

/-- models.py _TOOL_INPUT_KEYS: which input field to surface per tool. -/
def toolInputKey : String → Option String
  | "Read" => some "file_path"
  | "Edit" => some "file_path"
  | "Write" => some "file_path"
  | "Glob" => some "pattern"
  | "Grep" => some "pattern"
  | "Bash" => some "command"
  | "WebFetch" => some "url"
  | "WebSearch" => some "query"
  | _ => none

/-- First string value of the input dict, else the empty string: the
    fallback loop of summarize_tool_input. -/
def firstStringValue : List (String × JVal) → String
  | [] => ""
  | (_, JVal.str s) :: _ => s
  | _ :: rest => firstStringValue rest

/-- models.py summarize_tool_input. Looking the tool name up in the key
    table requires a hashable name; container values raise TypeError. -/
def summarize_tool_input (toolName : JVal) (input : List (String × JVal)) : Except PyErr String :=
  match toolName with
  | JVal.arr _ => Except.error PyErr.typeError
  | JVal.obj _ => Except.error PyErr.typeError
  | tn =>
      let keyOpt := match tn with
        | JVal.str s => toolInputKey s
        | _ => none
      match keyOpt with
      | some k =>
          match input.lookup k with
          | some v => Except.ok (pyStr v)
          | none => Except.ok (firstStringValue input)
      | none => Except.ok (firstStringValue input)

/-- One assistant content block (stream_parser.py _parse_assistant body).
    Non-dict blocks raise AttributeError on .get; a text block whose text
    field is not a string raises TypeError when the marker regexes scan
    it, discarding the events gathered so far. -/
def parseAssistantBlock (b : JVal) : Except PyErr (List StreamEvent) :=
  match b with
  | JVal.obj f =>
      match dictGet f "type" (JVal.str "") with
      | JVal.str "text" =>
          match dictGet f "text" (JVal.str "") with
          | JVal.str s =>
              Except.ok (StreamEvent.textEvent (JVal.str s) false :: detect_markers s)
          | _ => Except.error PyErr.typeError
      | JVal.str "tool_use" =>
          let nameV := dictGet f "name" (JVal.str "")
          let inputV := dictGet f "input" (JVal.obj [])
          match inputV with
          | JVal.obj infs =>
              match summarize_tool_input nameV infs with
              | Except.ok summary => Except.ok [StreamEvent.toolUseEvent nameV summary]
              | Except.error e => Except.error e
          | v => Except.ok [StreamEvent.toolUseEvent nameV ((pyStr v).take 60)]
      | JVal.str "thinking" =>
          Except.ok [StreamEvent.textEvent (dictGet f "thinking" (JVal.str "")) true]
      | _ => Except.ok []
  | _ => Except.error PyErr.attributeError

/-- Fold the assistant blocks left to right; the first exception discards
    everything, as in the Python for-loop. -/
def parseAssistantBlocks : List JVal → Except PyErr (List StreamEvent)
  | [] => Except.ok []
  | b :: rest =>
      match parseAssistantBlock b with
      | Except.error e => Except.error e
      | Except.ok evs =>
          match parseAssistantBlocks rest with
          | Except.error e => Except.error e
          | Except.ok more => Except.ok (evs ++ more)

/-- stream_parser.py _parse_assistant. Iterating a non-list content value
    either raises or produces no events; both end in the same single
    unknown event, so the embedding folds them into an error. -/
def parseAssistant (fs : List (String × JVal)) : Except PyErr (List StreamEvent) :=
  match dictGet fs "message" (JVal.obj []) with
  | JVal.obj mf =>
      match dictGet mf "content" (JVal.arr []) with
      | JVal.arr blocks =>
          match parseAssistantBlocks blocks with
          | Except.error e => Except.error e
          | Except.ok evs =>
              Except.ok (if evs.isEmpty then [StreamEvent.unknownEvent (JVal.obj fs)] else evs)
      | _ => Except.error PyErr.typeError
  | _ => Except.error PyErr.attributeError

/-- Join the text parts of a list-valued tool_result content; join raises
    TypeError if any collected part is not a string. -/
def collectTextParts : List JVal → Except PyErr (List String)
  | [] => Except.ok []
  | p :: rest =>
      match p with
      | JVal.obj pf =>
          match pf.lookup "type" with
          | some (JVal.str "text") =>
              match dictGet pf "text" (JVal.str "") with
              | JVal.str s =>
                  match collectTextParts rest with
                  | Except.error e => Except.error e
                  | Except.ok more => Except.ok (s :: more)
              | _ => Except.error PyErr.typeError
          | _ => collectTextParts rest
      | _ => collectTextParts rest

/-- One user content block (stream_parser.py _parse_user body). -/
def parseUserBlock (b : JVal) : Except PyErr (List StreamEvent) :=
  match b with
  | JVal.obj f =>
      match dictGet f "type" (JVal.str "") with
      | JVal.str "tool_result" =>
          let tid := dictGet f "tool_use_id" (JVal.str "")
          match dictGet f "content" (JVal.str "") with
          | JVal.arr parts =>
              match collectTextParts parts with
              | Except.error e => Except.error e
              | Except.ok ps =>
                  Except.ok [StreamEvent.toolResultEvent tid ((String.intercalate " " ps).take 60)]
          | JVal.str s => Except.ok [StreamEvent.toolResultEvent tid (s.take 60)]
          | v => Except.ok [StreamEvent.toolResultEvent tid ((pyStr v).take 60)]
      | JVal.str "text" =>
          Except.ok [StreamEvent.textEvent (dictGet f "text" (JVal.str "")) false]
      | _ => Except.ok []
  | _ => Except.error PyErr.attributeError

/-- Fold the user blocks left to right. -/
def parseUserBlocks : List JVal → Except PyErr (List StreamEvent)
  | [] => Except.ok []
  | b :: rest =>
      match parseUserBlock b with
      | Except.error e => Except.error e
      | Except.ok evs =>
          match parseUserBlocks rest with
          | Except.error e => Except.error e
          | Except.ok more => Except.ok (evs ++ more)

/-- stream_parser.py _parse_user, with the same no-events fallback as
    _parse_assistant. -/
def parseUser (fs : List (String × JVal)) : Except PyErr (List StreamEvent) :=
  match dictGet fs "message" (JVal.obj []) with
  | JVal.obj mf =>
      match dictGet mf "content" (JVal.arr []) with
      | JVal.arr blocks =>
          match parseUserBlocks blocks with
          | Except.error e => Except.error e
          | Except.ok evs =>
              Except.ok (if evs.isEmpty then [StreamEvent.unknownEvent (JVal.obj fs)] else evs)
      | _ => Except.error PyErr.typeError
  | _ => Except.error PyErr.attributeError

/-- A tools-list element of an init record: dicts contribute their name
    field (defaulting to the dict itself), everything else its str(). -/
def toolEntry : JVal → JVal
  | JVal.obj f => (f.lookup "name").getD (JVal.obj f)
  | v => JVal.str (pyStr v)

/-- stream_parser.py _parse_system. -/
def parseSystem (fs : List (String × JVal)) : Except PyErr (List StreamEvent) :=
  match dictGet fs "subtype" (JVal.str "") with
  | JVal.str "init" =>
      match iterPy (dictGet fs "tools" (JVal.arr [])) with
      | Except.error e => Except.error e
      | Except.ok ts =>
          Except.ok [StreamEvent.initEvent (dictGet fs "model" (JVal.str ""))
            (ts.map toolEntry)
            (dictGet fs "permissionMode" (JVal.str ""))
            (dictGet fs "session_id" (JVal.str ""))]
  | sub => Except.ok [StreamEvent.systemEvent sub]

/-- The cost field of a result record, read under either of two names,
    the first taking precedence. -/
def resultCostRaw (fs : List (String × JVal)) : Option JVal :=
  match pyGetOpt fs "total_cost_usd" with
  | some v => some v
  | none => pyGetOpt fs "cost_usd"

/-- The ResultEvent constructed by _parse_result. -/
def mkResultEvent (fs : List (String × JVal)) (cost : Option Int) : StreamEvent :=
  StreamEvent.resultEvent (dictGet fs "duration_ms" (JVal.num 0))
    (dictGet fs "num_turns" (JVal.num 0))
    (dictGet fs "is_error" (JVal.bool false))
    (dictGet fs "subtype" (JVal.str "")) cost

/-- stream_parser.py _parse_result: the cost value, when present, is
    coerced with float(), which can raise. -/
def parseResult (fs : List (String × JVal)) : Except PyErr (List StreamEvent) :=
  match resultCostRaw fs with
  | none => Except.ok [mkResultEvent fs none]
  | some cv =>
      match pyFloat cv with
      | Except.error e => Except.error e
      | Except.ok n => Except.ok [mkResultEvent fs (some n)]

/-- stream_parser.py _parse_rate_limit: a reset-timestamp parse failure is
    caught locally and yields no reset time. The datetime value is
    modelled by its epoch integer. -/
def parseRateLimit (fs : List (String × JVal)) : Except PyErr (List StreamEvent) :=
  match dictGet fs "rate_limit_info" (JVal.obj []) with
  | JVal.obj inf =>
      let resets : Option Int := match pyGetOpt inf "resetsAt" with
        | none => none
        | some v =>
            match pyFloat v with
            | Except.ok n => some n
            | Except.error _ => none
      Except.ok [StreamEvent.rateLimitEvent (dictGet inf "status" (JVal.str ""))
        resets (dictGet inf "rateLimitType" (JVal.str ""))]
  | _ => Except.error PyErr.attributeError

/-- The three ways one raw line can come out of stripping and json.loads:
    empty after strip, undecodable, or a decoded value. Every string
    input falls into exactly one of these classes, so quantifying over
    LineInput quantifies over all string inputs. -/
inductive LineInput
  | blank
  | undecodable (raw : String)
  | decoded (v : JVal)

/-- The match on the type discriminator inside the try block of
    parse_line. -/
def dispatchLine (fs : List (String × JVal)) : Except PyErr (List StreamEvent) :=
  match dictGet fs "type" (JVal.str "") with
  | JVal.str "system" => parseSystem fs
  | JVal.str "assistant" => parseAssistant fs
  | JVal.str "user" => parseUser fs
  | JVal.str "result" => parseResult fs
  | JVal.str "rate_limit_event" => parseRateLimit fs
  | _ => Except.ok [StreamEvent.unknownEvent (JVal.obj fs)]

/-- stream_parser.py parse_line: dispatch on the type discriminator, with
    the whole dispatch wrapped so any exception degrades to a single
    unknown event carrying the decoded structure. -/
def parse_line : LineInput → List StreamEvent
  | LineInput.blank => [StreamEvent.unknownEvent (JVal.str "")]
  | LineInput.undecodable raw => [StreamEvent.unknownEvent (JVal.str raw)]
  | LineInput.decoded v =>
      match v with
      | JVal.obj fs =>
          match dispatchLine fs with
          | Except.ok evs => evs
          | Except.error _ => [StreamEvent.unknownEvent (JVal.obj fs)]
      | w => [StreamEvent.unknownEvent w]

/-- The match of the regex digits-dash-digits-dash against the start of a
    key (sprint_status.py uses re.match, which only anchors at the
    start). The greedy digit runs are exact: backtracking cannot turn a
    digit into the required dash. -/
def storyKeyMatch (s : String) : Bool :=
  let p1 := s.toList.span (fun c => c.isDigit)
  match p1.1, p1.2 with
  | [], _ => false
  | _ :: _, '-' :: r2 =>
      let p2 := r2.span (fun c => c.isDigit)
      match p2.1, p2.2 with
      | [], _ => false
      | _ :: _, '-' :: _ => true
      | _, _ => false
  | _, _ => false

/-- The development_status mapping of the status document, in its
    iteration order. The source coerces keys and statuses with str();
    the embedding works over the coerced strings. -/
abbrev DevStatus := List (String × String)

/-- The priority tiers of next_actionable_story, in source order. -/
def priorityStatuses : List String :=
  ["in-progress", "review", "ready-for-dev", "backlog"]

/-- The inner scan of next_actionable_story for one target status: the
    first entry whose key matches the story shape and whose status equals
    the target. -/
def findWithStatus (dev : DevStatus) (target : String) : Option (String × String) :=
  match dev.find? (fun kv => storyKeyMatch kv.1 && kv.2 == target) with
  | some kv => some (kv.1, target)
  | none => none

/-- The outer loop of next_actionable_story over the remaining priority
    tiers. -/
def nextActionGo (dev : DevStatus) : List String → Option (String × String)
  | [] => none
  | t :: ts =>
      match findWithStatus dev t with
      | some r => some r
      | none => nextActionGo dev ts

/-- sprint_status.py next_actionable_story: scan the priority tiers in
    order and return the first match within a tier, in store iteration
    order. -/
def next_actionable_story (dev : DevStatus) : Option (String × String) :=
  nextActionGo dev priorityStatuses

/-- sprint_status.py get_story_status. -/
def get_story_status (dev : DevStatus) (key : String) : String :=
  (dev.lookup key).getD "unknown"

/-- A parse failure raised by yaml.safe_load while the external process
    is mid-write. -/
inductive ParseError
  | corruptYaml
  deriving DecidableEq, Repr

/-- sprint_status.py load_status over the outcome of one file read:
    safe_load either raises, yields nothing (coalesced to the empty
    document by the or-default), or yields a document. -/
def load_status (attempt : Except ParseError (Option DevStatus)) : Except ParseError DevStatus :=
  match attempt with
  | Except.error e => Except.error e
  | Except.ok none => Except.ok []
  | Except.ok (some d) => Except.ok d

/-- A status-store read as the orchestrator performs it: orchestrator.py
    calls load_status directly, consuming only the first of the read
    attempts that the file could offer — there is no retry wrapper in
    the shipped module. -/
def orchestratorStatusRead (attempts : Nat → Except ParseError (Option DevStatus)) :
    Except ParseError DevStatus :=
  load_status (attempts 0)

/-- claude_session.py run_claude_session carries the last structured
    result event of the stream; only its self-reported error state drives
    the success flag. -/
structure SessionResult where
  isError : JVal

/-- The success determination of run_claude_session: a timeout returns a
    failed StepResult early; otherwise success checks the structured
    result event against the exit code, falling back to the exit code
    alone when no result event was observed. -/
def sessionSuccess (timedOut : Bool) (resultEvent : Option SessionResult) (exitCode : Int) : Bool :=
  if timedOut then false
  else
    match resultEvent with
    | some re => !pyTruthy re.isError && exitCode == 0
    | none => exitCode == 0

/-- models.py MarkerEvent, as accumulated into StepResult.markers_detected. -/
structure MarkerEv where
  markerType : MarkerType
  payload : String
  deriving DecidableEq, Repr

/-- The slice of models.py StepResult that the orchestration loop reads:
    the success flag and the detected markers. Duration, turns and cost
    are recorded but never branch the loop. -/
structure StepRes where
  success : Bool
  markersDetected : List MarkerEv
  deriving DecidableEq, Repr

/-- The HALT check of orchestrator.py line 308. -/
def hasHalt (r : StepRes) : Bool :=
  r.markersDetected.any (fun m => m.markerType == MarkerType.HALT)

/-- The externally produced inputs of one unit of work: per-phase session
    results and the status-store values read back after each phase. The
    subprocess and the YAML file are outside the program, so they enter
    the model as data. -/
structure StoryEnv where
  csResult : StepRes
  statusAfterCS : String
  dsResult : Nat → StepRes
  statusAfterDS : Nat → String
  crResult : Nat → StepRes
  statusAfterCR : Nat → String
  commitResult : StepRes

/-- One phase invocation in the trace of a unit of work. -/
inductive PhaseCall
  | cs
  | ds (round : Nat)
  | cr (round : Nat)
  | commit
  deriving DecidableEq, Repr

/-- The resume phase derived from _STATUS_TO_STEP. StepKind.COMMIT is
    never a resume target, so the resume type has three values. -/
inductive ResumePhase
  | CS
  | DS
  | CR
  deriving DecidableEq, Repr

/-- orchestrator.py _STATUS_TO_STEP with its .get default: in-progress
    and ready-for-dev resume at Develop, review at Review, and backlog or
    anything else at Create. -/
def statusToResume (status : String) : ResumePhase :=
  if status == "in-progress" then ResumePhase.DS
  else if status == "ready-for-dev" then ResumePhase.DS
  else if status == "review" then ResumePhase.CR
  else ResumePhase.CS

/-- The story-file existence guard of orchestrator.py lines 155-160:
    resuming at Develop or Review without the detail file falls back to
    Create. -/
def resolveResume (status : String) (storyFileExists : Bool) : ResumePhase :=
  match statusToResume status with
  | ResumePhase.DS => if storyFileExists then ResumePhase.DS else ResumePhase.CS
  | ResumePhase.CR => if storyFileExists then ResumePhase.CR else ResumePhase.CS
  | ResumePhase.CS => ResumePhase.CS

/-- The Review section each round ends with (orchestrator.py lines
    322-364): the Review session runs, its result is recorded but never
    branched on, and only the status read after Review (line 351) decides
    completion — done ends the round loop with story_done, anything else
    continues with the recursion outcome p of the remaining rounds. -/
def crPartOf (env : StoryEnv) (r : Nat) (p : List PhaseCall × Bool) : List PhaseCall × Bool :=
  if env.statusAfterCR r == "done" then ([PhaseCall.cr r], true)
  else (PhaseCall.cr r :: p.1, p.2)

/-- The Develop/Review retry loop of orchestrator.py lines 267-364 over
    the remaining round numbers, returning the phase calls made and the
    story_done flag. The skip flag skips Develop on the first round when
    resuming directly at Review. A failed Develop session breaks
    immediately (line 303) without consulting the status store; a HALT
    marker breaks next (line 308); the post-Develop status check (lines
    313-320) only logs a warning, so it has no branch here. -/
def devReviewLoop (env : StoryEnv) : List Nat → Bool → List PhaseCall × Bool
  | [], _ => ([], false)
  | r :: rest, true => crPartOf env r (devReviewLoop env rest false)
  | r :: rest, false =>
      let ds := env.dsResult r
      if ds.success == false then ([PhaseCall.ds r], false)
      else if hasHalt ds then ([PhaseCall.ds r], false)
      else
        let p := crPartOf env r (devReviewLoop env rest false)
        (PhaseCall.ds r :: p.1, p.2)

/-- What one unit of work produced: its phase-call trace, whether
    story_count was incremented, and whether the outer story loop broke. -/
structure StoryOutcome where
  trace : List PhaseCall
  counted : Bool
  abortRun : Bool
  deriving DecidableEq, Repr

/-- range(start_round, max_review_rounds + 1) with start_round = 1. -/
def roundsList (maxReviewRounds : Nat) : List Nat :=
  List.range' 1 maxReviewRounds

/-- Steps 4 of the loop (orchestrator.py lines 366-395): when the retry
    loop ended with story_done, the commit session runs and story_count
    is incremented unconditionally right after it (line 386) — the
    commit result and the git log are not consulted; otherwise the
    outer loop breaks. -/
def finishStory (pre : List PhaseCall) (p : List PhaseCall × Bool) : StoryOutcome :=
  if p.2 then
    { trace := pre ++ p.1 ++ [PhaseCall.commit], counted := true, abortRun := false }
  else
    { trace := pre ++ p.1, counted := false, abortRun := true }

/-- One unit of work through orchestrator.py lines 197-395: the Create
    phase runs only when resuming at Create, breaking the run on a failed
    session (line 220) or on a post-Create status other than
    ready-for-dev (line 230); then the Develop/Review loop; then commit
    or break. -/
def runStory (env : StoryEnv) (resume : ResumePhase) (maxReviewRounds : Nat) : StoryOutcome :=
  match resume with
  | ResumePhase.CS =>
      let cs := env.csResult
      if cs.success == false then
        { trace := [PhaseCall.cs], counted := false, abortRun := true }
      else if env.statusAfterCS != "ready-for-dev" then
        { trace := [PhaseCall.cs], counted := false, abortRun := true }
      else
        finishStory [PhaseCall.cs] (devReviewLoop env (roundsList maxReviewRounds) false)
  | ResumePhase.DS =>
      finishStory [] (devReviewLoop env (roundsList maxReviewRounds) false)
  | ResumePhase.CR =>
      finishStory [] (devReviewLoop env (roundsList maxReviewRounds) true)

/-- One unit of work starting from the status the loop selected and the
    detail-file existence check. -/
def runStoryFromStatus (env : StoryEnv) (status : String) (storyFileExists : Bool)
    (maxReviewRounds : Nat) : StoryOutcome :=
  runStory env (resolveResume status storyFileExists) maxReviewRounds

/-- Number of Develop invocations in a trace. -/
def dsCount (t : List PhaseCall) : Nat :=
  t.countP (fun p => match p with | PhaseCall.ds _ => true | _ => false)

/-- Number of Review invocations in a trace. -/
def crCount (t : List PhaseCall) : Nat :=
  t.countP (fun p => match p with | PhaseCall.cr _ => true | _ => false)

/-- A unit of work whose Create session reports failure while the status
    store shows the story already advanced to ready-for-dev. -/
def envCsFailAdvanced : StoryEnv :=
  { csResult := { success := false, markersDetected := [] }
    statusAfterCS := "ready-for-dev"
    dsResult := fun _ => { success := true, markersDetected := [] }
    statusAfterDS := fun _ => "review"
    crResult := fun _ => { success := true, markersDetected := [] }
    statusAfterCR := fun _ => "done"
    commitResult := { success := true, markersDetected := [] } }

/-- A unit of work that sails through to done but whose commit session
    reports failure. -/
def envCommitFails : StoryEnv :=
  { csResult := { success := true, markersDetected := [] }
    statusAfterCS := "ready-for-dev"
    dsResult := fun _ => { success := true, markersDetected := [] }
    statusAfterDS := fun _ => "review"
    crResult := fun _ => { success := true, markersDetected := [] }
    statusAfterCR := fun _ => "done"
    commitResult := { success := false, markersDetected := [] } }

/-- A unit of work whose Develop session succeeds but whose post-Develop
    status read returns backlog, neither review nor done; review rounds
    never reach done. -/
def envDsUnexpectedStatus : StoryEnv :=
  { csResult := { success := true, markersDetected := [] }
    statusAfterCS := "ready-for-dev"
    dsResult := fun _ => { success := true, markersDetected := [] }
    statusAfterDS := fun _ => "backlog"
    crResult := fun _ => { success := true, markersDetected := [] }
    statusAfterCR := fun _ => "backlog"
    commitResult := { success := true, markersDetected := [] } }

/-- A unit of work whose Develop session succeeds, advances the status to
    review, and emits a HALT marker. -/
def envHaltAdvanced : StoryEnv :=
  { csResult := { success := true, markersDetected := [] }
    statusAfterCS := "ready-for-dev"
    dsResult := fun _ =>
      { success := true
        markersDetected := [{ markerType := MarkerType.HALT, payload := "Missing dependency" }] }
    statusAfterDS := fun _ => "review"
    crResult := fun _ => { success := true, markersDetected := [] }
    statusAfterCR := fun _ => "done"
    commitResult := { success := true, markersDetected := [] } }

/-- Read attempts against a status file being written concurrently: the
    first parse raises, the second would succeed. -/
def flakyAttempts : Nat → Except ParseError (Option DevStatus) :=
  fun n =>
    if n == 0 then Except.error ParseError.corruptYaml
    else Except.ok (some [("1-1-foo", "backlog")])

/-- Modelled on the claim words for the selection contract: the first
    entry of the store, in iteration order, that is a unit of work with
    the given status. Compared against the find-based source scan. -/
def firstStoryWith (target : String) : DevStatus → Option (String × String)
  | [] => none
  | kv :: rest =>
      if storyKeyMatch kv.1 = true ∧ kv.2 = target then some kv
      else firstStoryWith target rest

/-- A status document with an epic-level key in the highest tier and one
    story key. -/
def demoDev : DevStatus :=
  [("epic-1", "in-progress"), ("1-2-foo", "review")]

/-! ## Supporting lemmas -/

/-- The no-events fallback of the assistant and user branches always
    leaves a non-empty list. -/
theorem ifEmpty_ne_nil (evs0 : List StreamEvent) (u : StreamEvent) :
    (if evs0.isEmpty then [u] else evs0) ≠ [] := by
  split
  · simp
  · rename_i h
    simpa [List.isEmpty_iff] using h

/-- A successful system branch yields a non-empty event list. -/
theorem parseSystem_ok_ne_nil {fs : List (String × JVal)} {evs : List StreamEvent}
    (h : parseSystem fs = Except.ok evs) : evs ≠ [] := by
  unfold parseSystem at h
  split at h
  · split at h
    · exact Except.noConfusion h
    · cases h; simp
  · cases h; simp

/-- A successful assistant branch yields a non-empty event list. -/
theorem parseAssistant_ok_ne_nil {fs : List (String × JVal)} {evs : List StreamEvent}
    (h : parseAssistant fs = Except.ok evs) : evs ≠ [] := by
  unfold parseAssistant at h
  split at h
  · split at h
    · split at h
      · exact Except.noConfusion h
      · cases h; exact ifEmpty_ne_nil _ _
    · exact Except.noConfusion h
  · exact Except.noConfusion h

/-- A successful user branch yields a non-empty event list. -/
theorem parseUser_ok_ne_nil {fs : List (String × JVal)} {evs : List StreamEvent}
    (h : parseUser fs = Except.ok evs) : evs ≠ [] := by
  unfold parseUser at h
  split at h
  · split at h
    · split at h
      · exact Except.noConfusion h
      · cases h; exact ifEmpty_ne_nil _ _
    · exact Except.noConfusion h
  · exact Except.noConfusion h

/-- A successful result branch yields a non-empty event list. -/
theorem parseResult_ok_ne_nil {fs : List (String × JVal)} {evs : List StreamEvent}
    (h : parseResult fs = Except.ok evs) : evs ≠ [] := by
  unfold parseResult at h
  split at h
  · cases h; simp
  · split at h
    · exact Except.noConfusion h
    · cases h; simp

/-- A successful rate-limit branch yields a non-empty event list. -/
theorem parseRateLimit_ok_ne_nil {fs : List (String × JVal)} {evs : List StreamEvent}
    (h : parseRateLimit fs = Except.ok evs) : evs ≠ [] := by
  unfold parseRateLimit at h
  split at h
  · cases h; simp
  · exact Except.noConfusion h

/-- A successful dispatch yields a non-empty event list. -/
theorem dispatchLine_ok_ne_nil {fs : List (String × JVal)} {evs : List StreamEvent}
    (h : dispatchLine fs = Except.ok evs) : evs ≠ [] := by
  unfold dispatchLine at h
  split at h
  · exact parseSystem_ok_ne_nil h
  · exact parseAssistant_ok_ne_nil h
  · exact parseUser_ok_ne_nil h
  · exact parseResult_ok_ne_nil h
  · exact parseRateLimit_ok_ne_nil h
  · cases h; simp

/-- The find-based source scan for one tier agrees with the spec-worded
    first-entry recursion; in particular the status it returns is the one
    the store holds for the returned key. -/
theorem findWithStatus_eq_firstStoryWith (t : String) (dev : DevStatus) :
    findWithStatus dev t = firstStoryWith t dev := by
  induction dev with
  | nil => rfl
  | cons kv rest ih =>
    obtain ⟨k, v⟩ := kv
    by_cases hk : storyKeyMatch k = true
    · by_cases hv : v = t
      · simp [findWithStatus, firstStoryWith, List.find?, hk, hv]
      · have hpred : (storyKeyMatch k && v == t) = false := by
          simp [hk, hv]
        simp only [findWithStatus, firstStoryWith, List.find?, hpred]
        rw [if_neg (by simp [hv])]
        exact ih
    · have hpred : (storyKeyMatch k && v == t) = false := by
        simp [Bool.and_eq_false_iff]
        intro h; exact absurd h hk
      simp only [findWithStatus, firstStoryWith, List.find?, hpred]
      rw [if_neg (by intro hc; exact hk hc.1)]
      exact ih

/-- The spec-worded tier scan returns nothing exactly when no unit of
    work in the store has the target status. -/
theorem firstStoryWith_eq_none_iff (t : String) (dev : DevStatus) :
    firstStoryWith t dev = none ↔
      ∀ kv ∈ dev, storyKeyMatch kv.1 = true → kv.2 ≠ t := by
  induction dev with
  | nil => simp [firstStoryWith]
  | cons kv rest ih =>
    obtain ⟨k, v⟩ := kv
    simp only [firstStoryWith]
    split
    · rename_i hcond
      simp only [List.mem_cons]
      constructor
      · intro h; exact absurd h (by simp)
      · intro hall
        exact absurd hcond.2 ((hall (k, v) (Or.inl rfl)) hcond.1)
    · rename_i hcond
      rw [ih]
      simp only [List.mem_cons]
      constructor
      · intro hall kv hm hk
        rcases hm with hm | hm
        · subst hm
          intro hveq
          exact hcond ⟨hk, hveq⟩
        · exact hall kv hm hk
      · intro hall kv hm hk
        exact hall kv (Or.inr hm) hk

/-- What a successful tier scan returns: a story-shaped key, an entry of
    the store, and the tier status itself. -/
theorem firstStoryWith_some {t k s : String} {dev : DevStatus}
    (h : firstStoryWith t dev = some (k, s)) :
    storyKeyMatch k = true ∧ (k, s) ∈ dev ∧ s = t := by
  induction dev with
  | nil => simp [firstStoryWith] at h
  | cons kv rest ih =>
    obtain ⟨a, b⟩ := kv
    simp only [firstStoryWith] at h
    split at h
    · rename_i hcond
      injection h with h1
      have ha : a = k := congrArg Prod.fst h1
      have hb : b = s := congrArg Prod.snd h1
      subst ha; subst hb
      exact ⟨hcond.1, List.mem_cons_self _ _, hcond.2⟩
    · have := ih h
      exact ⟨this.1, List.mem_cons_of_mem _ this.2.1, this.2.2⟩

/-- The Review section either closes the round loop with story_done on a
    done status, or passes the recursion outcome through behind its own
    Review call. -/
theorem crPartOf_cases (env : StoryEnv) (r : Nat) (p : List PhaseCall × Bool) :
    crPartOf env r p = ([PhaseCall.cr r], true) ∨
      crPartOf env r p = (PhaseCall.cr r :: p.1, p.2) := by
  unfold crPartOf
  split
  · exact Or.inl rfl
  · exact Or.inr rfl

/-- The round recursion on a non-empty round list lands in one of four
    shapes: Develop failed, Develop HALTed, or Develop ran (or was
    skipped) followed by the Review section. -/
theorem devReviewLoop_cons (env : StoryEnv) (r0 : Nat) (rest : List Nat) (skip : Bool) :
    (skip = true ∧
      devReviewLoop env (r0 :: rest) skip = crPartOf env r0 (devReviewLoop env rest false)) ∨
    (skip = false ∧ ((env.dsResult r0).success == false) = true ∧
      devReviewLoop env (r0 :: rest) skip = ([PhaseCall.ds r0], false)) ∨
    (skip = false ∧ ((env.dsResult r0).success == false) = false ∧ hasHalt (env.dsResult r0) = true ∧
      devReviewLoop env (r0 :: rest) skip = ([PhaseCall.ds r0], false)) ∨
    (skip = false ∧ ((env.dsResult r0).success == false) = false ∧ hasHalt (env.dsResult r0) = false ∧
      devReviewLoop env (r0 :: rest) skip =
        (PhaseCall.ds r0 :: (crPartOf env r0 (devReviewLoop env rest false)).1,
          (crPartOf env r0 (devReviewLoop env rest false)).2)) := by
  cases skip with
  | true => exact Or.inl ⟨rfl, rfl⟩
  | false =>
    by_cases hds : ((env.dsResult r0).success == false) = true
    · refine Or.inr (Or.inl ⟨rfl, hds, ?_⟩)
      simp [devReviewLoop, hds]
    · by_cases hh : hasHalt (env.dsResult r0) = true
      · refine Or.inr (Or.inr (Or.inl ⟨rfl, by simpa using hds, hh, ?_⟩))
        simp [devReviewLoop, hds, hh]
      · refine Or.inr (Or.inr (Or.inr ⟨rfl, by simpa using hds, by simpa using hh, ?_⟩))
        simp [devReviewLoop, hds, hh]

/-- The Develop/Review loop never makes a Commit phase call. -/
theorem commit_not_in_loop (env : StoryEnv) :
    ∀ (L : List Nat) (skip : Bool), PhaseCall.commit ∉ (devReviewLoop env L skip).1 := by
  intro L
  induction L with
  | nil => intro skip; simp [devReviewLoop]
  | cons r0 rest ih =>
    intro skip
    have hcr := crPartOf_cases env r0 (devReviewLoop env rest false)
    rcases devReviewLoop_cons env r0 rest skip with ⟨_, he⟩ | ⟨_, _, he⟩ | ⟨_, _, _, he⟩ |
        ⟨_, _, _, he⟩ <;> rw [he] <;>
      rcases hcr with hc | hc <;> simp [hc, ih false]

/-- If a Develop call whose session result carries a HALT marker appears
    in the loop trace, the loop ended without story_done. -/
theorem loop_halt_not_done (env : StoryEnv) :
    ∀ (L : List Nat) (skip : Bool) (r : Nat),
      PhaseCall.ds r ∈ (devReviewLoop env L skip).1 →
      hasHalt (env.dsResult r) = true →
      (devReviewLoop env L skip).2 = false := by
  intro L
  induction L with
  | nil => intro skip r hmem _; simp [devReviewLoop] at hmem
  | cons r0 rest ih =>
    intro skip r hmem hhalt
    have hcr := crPartOf_cases env r0 (devReviewLoop env rest false)
    rcases devReviewLoop_cons env r0 rest skip with ⟨_, he⟩ | ⟨_, _, he⟩ | ⟨_, _, _, he⟩ |
        ⟨_, hds, hh, he⟩
    · rw [he] at hmem ⊢
      rcases hcr with hc | hc <;> rw [hc] at hmem ⊢
      · simp at hmem
      · simp only [List.mem_cons] at hmem
        rcases hmem with hmem | hmem
        · exact absurd hmem (by simp)
        · exact ih false r hmem hhalt
    · rw [he]
    · rw [he]
    · rw [he] at hmem ⊢
      simp only [List.mem_cons] at hmem
      rcases hmem with hmem | hmem
      · have hr : r = r0 := by cases hmem; rfl
        rw [hr] at hhalt
        rw [hhalt] at hh
        exact Bool.noConfusion hh
      · rcases hcr with hc | hc <;> rw [hc] at hmem ⊢
        · simp at hmem
        · simp only [List.mem_cons] at hmem
          rcases hmem with hmem | hmem
          · exact absurd hmem (by simp)
          · exact ih false r hmem hhalt

/-- Each remaining round contributes at most one Develop call and at most
    one Review call. -/
theorem loop_counts (env : StoryEnv) :
    ∀ (L : List Nat) (skip : Bool),
      dsCount (devReviewLoop env L skip).1 ≤ L.length ∧
        crCount (devReviewLoop env L skip).1 ≤ L.length := by
  intro L
  induction L with
  | nil => intro skip; simp [devReviewLoop, dsCount, crCount]
  | cons r0 rest ih =>
    intro skip
    obtain ⟨ih1, ih2⟩ := ih false
    have hcr := crPartOf_cases env r0 (devReviewLoop env rest false)
    rcases devReviewLoop_cons env r0 rest skip with ⟨_, he⟩ | ⟨_, _, he⟩ | ⟨_, _, _, he⟩ |
        ⟨_, _, _, he⟩ <;> rw [he] <;>
      rcases hcr with hc | hc <;>
        simp [hc, dsCount, crCount, List.countP_cons] at ih1 ih2 ⊢ <;> omega

/-- Commit appends exactly one Commit call and changes no Develop or
    Review counts. -/
theorem finish_counts (pre : List PhaseCall) (p : List PhaseCall × Bool) :
    dsCount (finishStory pre p).trace = dsCount pre + dsCount p.1 ∧
      crCount (finishStory pre p).trace = crCount pre + crCount p.1 := by
  by_cases h : p.2 = true <;>
    simp [finishStory, h, dsCount, crCount, List.countP_append, List.countP_cons]

/-- After the loop, a HALTed Develop call in the trace forces the
    no-commit exit of finishStory. -/
theorem finish_halt (env : StoryEnv) (pre : List PhaseCall)
    (hpre1 : ∀ n, PhaseCall.ds n ∉ pre) (hpre2 : PhaseCall.commit ∉ pre)
    (L : List Nat) (skip : Bool) (r : Nat)
    (hmem : PhaseCall.ds r ∈ (finishStory pre (devReviewLoop env L skip)).trace)
    (hhalt : hasHalt (env.dsResult r) = true) :
    PhaseCall.commit ∉ (finishStory pre (devReviewLoop env L skip)).trace ∧
      (finishStory pre (devReviewLoop env L skip)).counted = false := by
  by_cases h2 : (devReviewLoop env L skip).2 = true
  · exfalso
    simp only [finishStory, h2, if_true] at hmem
    simp only [List.mem_append, List.mem_cons, List.mem_singleton] at hmem
    have hin : PhaseCall.ds r ∈ (devReviewLoop env L skip).1 := by
      rcases hmem with (hmem | hmem) | hmem
      · exact absurd hmem (hpre1 r)
      · exact hmem
      · exact absurd hmem (by simp)
    have := loop_halt_not_done env L skip r hin hhalt
    rw [this] at h2
    exact Bool.noConfusion h2
  · have h2f : (devReviewLoop env L skip).2 = false := by
      simpa using h2
    constructor
    · simp only [finishStory, h2f, Bool.false_eq_true, if_false, List.mem_append]
      rintro (hc | hc)
      · exact hpre2 hc
      · exact commit_not_in_loop env L skip hc
    · simp [finishStory, h2f]

/-! ## Claim theorems -/

/-- C1: evaluation of the shipped loop at the reconciliation input. The
    Create session reports failure while the status store already shows
    ready-for-dev, yet run_stories breaks out of the story loop at
    orchestrator.py line 220 without reading the status store: the
    Develop phase never runs and the run aborts. -/
theorem cs_failure_with_advanced_status_aborts :
    envCsFailAdvanced.csResult.success = false ∧
    envCsFailAdvanced.statusAfterCS = "ready-for-dev" ∧
    runStory envCsFailAdvanced ResumePhase.CS 3 =
      { trace := [PhaseCall.cs], counted := false, abortRun := true } :=
  ⟨rfl, rfl, by decide⟩

/-- C2: evaluation of the shipped commit phase. A unit that reaches the
    Commit phase is counted (story_count incremented at orchestrator.py
    line 386) even though the commit session reported failure, and no
    post-commit git-log check takes place. -/
theorem commit_failure_still_counted :
    envCommitFails.commitResult.success = false ∧
    runStory envCommitFails ResumePhase.CS 1 =
      { trace := [PhaseCall.cs, PhaseCall.ds 1, PhaseCall.cr 1, PhaseCall.commit],
        counted := true, abortRun := false } :=
  ⟨rfl, by decide⟩

/-- C3: a Develop phase result carrying a HALT marker stops the unit of
    work without the Commit phase ever running and without counting it,
    whatever the status store says. -/
theorem halt_blocks_commit (env : StoryEnv) (resume : ResumePhase) (N : Nat) (r : Nat)
    (hmem : PhaseCall.ds r ∈ (runStory env resume N).trace)
    (hhalt : hasHalt (env.dsResult r) = true) :
    PhaseCall.commit ∉ (runStory env resume N).trace ∧
      (runStory env resume N).counted = false := by
  cases resume with
  | CS =>
    by_cases h1 : (env.csResult.success == false) = true
    · simp [runStory, h1] at hmem
    · by_cases hst : (env.statusAfterCS != "ready-for-dev") = true
      · simp [runStory, h1, hst] at hmem
      · simp only [runStory, h1, hst, Bool.false_eq_true, if_false] at hmem ⊢
        exact finish_halt env [PhaseCall.cs] (by intro n; simp) (by simp) _ _ r hmem hhalt
  | DS =>
    simp only [runStory] at hmem ⊢
    exact finish_halt env [] (by intro n; simp) (by simp) _ _ r hmem hhalt
  | CR =>
    simp only [runStory] at hmem ⊢
    exact finish_halt env [] (by intro n; simp) (by simp) _ _ r hmem hhalt

/-- Witness for C3: a Develop session that advanced the status to review
    and emitted HALT; the unit stops with no commit. -/
theorem halt_blocks_commit_witness :
    PhaseCall.commit ∉ (runStory envHaltAdvanced ResumePhase.DS 2).trace ∧
      (runStory envHaltAdvanced ResumePhase.DS 2).counted = false :=
  halt_blocks_commit envHaltAdvanced ResumePhase.DS 2 1 (by decide) (by decide)

/-- C4: evaluation of the shipped loop at the unexpected-status input.
    The Develop session succeeds but the status store then reads backlog,
    neither review nor done; the loop merely warns (orchestrator.py lines
    316-320), runs Review of round 1 and even loops into round 2 instead
    of aborting the unit. -/
theorem unexpected_ds_status_still_reviews :
    envDsUnexpectedStatus.statusAfterDS 1 = "backlog" ∧
    runStory envDsUnexpectedStatus ResumePhase.DS 2 =
      { trace := [PhaseCall.ds 1, PhaseCall.cr 1, PhaseCall.ds 2, PhaseCall.cr 2],
        counted := false, abortRun := true } :=
  ⟨rfl, by decide⟩

/-- C5: evaluation of the shipped status read at a transient parse
    failure. The first read attempt raises, the second would succeed, yet
    the orchestrator propagates the first error: load_status is called
    directly and no second attempt is consulted. -/
theorem status_read_error_not_retried :
    flakyAttempts 0 = Except.error ParseError.corruptYaml ∧
    flakyAttempts 1 = Except.ok (some [("1-1-foo", "backlog")]) ∧
    orchestratorStatusRead flakyAttempts = Except.error ParseError.corruptYaml :=
  ⟨rfl, rfl, rfl⟩

/-- C6: parse_line is total over every class of string input (empty after
    stripping, undecodable, decoded to a non-object, or decoded to any
    object) and always returns a non-empty event list. -/
theorem parse_line_never_empty (i : LineInput) : parse_line i ≠ [] := by
  cases i with
  | blank => simp [parse_line]
  | undecodable raw => simp [parse_line]
  | decoded v =>
    cases v with
    | obj fs =>
      cases h : dispatchLine fs with
      | ok evs =>
        have hne := dispatchLine_ok_ne_nil h
        simpa [parse_line, h] using hne
      | error e => simp [parse_line, h]
    | null => simp [parse_line]
    | bool b => simp [parse_line]
    | num n => simp [parse_line]
    | str s => simp [parse_line]
    | arr xs => simp [parse_line]

/-- C7: on a session that completes without timeout, the success flag is
    true exactly when a structured result event was observed with no
    self-reported error and the exit code is zero, or no structured
    result event was observed and the exit code is zero. -/
theorem session_success_iff (re : Option SessionResult) (ec : Int) :
    sessionSuccess false re ec = true ↔
      ((∃ r, re = some r ∧ pyTruthy r.isError = false) ∧ ec = 0) ∨
        (re = none ∧ ec = 0) := by
  cases re with
  | none => simp [sessionSuccess]
  | some r =>
    simp only [sessionSuccess, if_neg (by simp : ¬ (false = true)), Bool.and_eq_true,
      Bool.not_eq_true', beq_iff_eq]
    constructor
    · rintro ⟨h1, h2⟩
      exact Or.inl ⟨⟨r, rfl, h1⟩, h2⟩
    · rintro (⟨⟨r2, hr2, he⟩, hec⟩ | ⟨h, _⟩)
      · injection hr2 with hr2
        subst hr2
        exact ⟨he, hec⟩
      · exact Option.noConfusion h

/-- C8: the selection scans the tiers in-progress, review, ready-for-dev,
    backlog in that order, returning the first unit of work of the store
    in the first non-empty tier, and returns nothing exactly when no unit
    of work carries any of those statuses. -/
theorem next_actionable_priority_order (dev : DevStatus) :
    next_actionable_story dev =
      (firstStoryWith "in-progress" dev).orElse (fun _ =>
        (firstStoryWith "review" dev).orElse (fun _ =>
          (firstStoryWith "ready-for-dev" dev).orElse (fun _ =>
            firstStoryWith "backlog" dev))) ∧
    (next_actionable_story dev = none ↔
      ∀ kv ∈ dev, storyKeyMatch kv.1 = true →
        kv.2 ≠ "in-progress" ∧ kv.2 ≠ "review" ∧
          kv.2 ≠ "ready-for-dev" ∧ kv.2 ≠ "backlog") := by
  have e1 := findWithStatus_eq_firstStoryWith "in-progress" dev
  have e2 := findWithStatus_eq_firstStoryWith "review" dev
  have e3 := findWithStatus_eq_firstStoryWith "ready-for-dev" dev
  have e4 := findWithStatus_eq_firstStoryWith "backlog" dev
  have hchain : next_actionable_story dev =
      (firstStoryWith "in-progress" dev).orElse (fun _ =>
        (firstStoryWith "review" dev).orElse (fun _ =>
          (firstStoryWith "ready-for-dev" dev).orElse (fun _ =>
            firstStoryWith "backlog" dev))) := by
    simp only [next_actionable_story, priorityStatuses, nextActionGo, e1, e2, e3, e4]
    cases firstStoryWith "in-progress" dev <;>
      cases firstStoryWith "review" dev <;>
        cases firstStoryWith "ready-for-dev" dev <;>
          cases firstStoryWith "backlog" dev <;>
            simp [Option.orElse]
  refine ⟨hchain, ?_⟩
  rw [hchain]
  have hnone : ((firstStoryWith "in-progress" dev).orElse (fun _ =>
      (firstStoryWith "review" dev).orElse (fun _ =>
        (firstStoryWith "ready-for-dev" dev).orElse (fun _ =>
          firstStoryWith "backlog" dev))) = none) ↔
      (firstStoryWith "in-progress" dev = none ∧ firstStoryWith "review" dev = none ∧
        firstStoryWith "ready-for-dev" dev = none ∧ firstStoryWith "backlog" dev = none) := by
    cases firstStoryWith "in-progress" dev <;>
      cases firstStoryWith "review" dev <;>
        cases firstStoryWith "ready-for-dev" dev <;>
          cases firstStoryWith "backlog" dev <;>
            simp [Option.orElse]
  rw [hnone, firstStoryWith_eq_none_iff, firstStoryWith_eq_none_iff,
    firstStoryWith_eq_none_iff, firstStoryWith_eq_none_iff]
  constructor
  · rintro ⟨ha, hb, hc, hd⟩ kv hm hk
    exact ⟨ha kv hm hk, hb kv hm hk, hc kv hm hk, hd kv hm hk⟩
  · intro hall
    exact ⟨fun kv hm hk => (hall kv hm hk).1, fun kv hm hk => (hall kv hm hk).2.1,
      fun kv hm hk => (hall kv hm hk).2.2.1, fun kv hm hk => (hall kv hm hk).2.2.2⟩

/-- C9: with max_review_rounds = N, the trace of one unit of work holds
    at most N Develop calls and at most N Review calls. -/
theorem review_rounds_bounded (env : StoryEnv) (resume : ResumePhase) (N : Nat) :
    dsCount (runStory env resume N).trace ≤ N ∧
      crCount (runStory env resume N).trace ≤ N := by
  have hlen : (roundsList N).length = N := by simp [roundsList]
  cases resume with
  | CS =>
    by_cases h1 : (env.csResult.success == false) = true
    · simp [runStory, h1, dsCount, crCount]
    · by_cases hst : (env.statusAfterCS != "ready-for-dev") = true
      · simp [runStory, h1, hst, dsCount, crCount]
      · simp only [runStory, h1, hst, Bool.false_eq_true, if_false]
        have hc := finish_counts [PhaseCall.cs] (devReviewLoop env (roundsList N) false)
        obtain ⟨hl1, hl2⟩ := loop_counts env (roundsList N) false
        rw [hlen] at hl1 hl2
        rw [hc.1, hc.2]
        have hpre1 : dsCount [PhaseCall.cs] = 0 := by simp [dsCount]
        have hpre2 : crCount [PhaseCall.cs] = 0 := by simp [crCount]
        omega
  | DS =>
    simp only [runStory]
    have hc := finish_counts [] (devReviewLoop env (roundsList N) false)
    obtain ⟨hl1, hl2⟩ := loop_counts env (roundsList N) false
    rw [hlen] at hl1 hl2
    rw [hc.1, hc.2]
    have hpre1 : dsCount ([] : List PhaseCall) = 0 := by simp [dsCount]
    have hpre2 : crCount ([] : List PhaseCall) = 0 := by simp [crCount]
    omega
  | CR =>
    simp only [runStory]
    have hc := finish_counts [] (devReviewLoop env (roundsList N) true)
    obtain ⟨hl1, hl2⟩ := loop_counts env (roundsList N) true
    rw [hlen] at hl1 hl2
    rw [hc.1, hc.2]
    have hpre1 : dsCount ([] : List PhaseCall) = 0 := by simp [dsCount]
    have hpre2 : crCount ([] : List PhaseCall) = 0 := by simp [crCount]
    omega

/-- C10: whatever the selection returns is a pair made of a key matching
    the digits-dash-digits-dash story shape together with the very status
    string the store maps that key to. -/
theorem next_actionable_shape {dev : DevStatus} {k s : String}
    (h : next_actionable_story dev = some (k, s)) :
    storyKeyMatch k = true ∧ (k, s) ∈ dev := by
  have hgo : ∀ ts : List String, nextActionGo dev ts = some (k, s) →
      storyKeyMatch k = true ∧ (k, s) ∈ dev := by
    intro ts
    induction ts with
    | nil => intro h0; simp [nextActionGo] at h0
    | cons t ts ih =>
      intro h0
      simp only [nextActionGo] at h0
      split at h0
      · rename_i r hr
        injection h0 with h0
        subst h0
        rw [findWithStatus_eq_firstStoryWith] at hr
        have := firstStoryWith_some hr
        exact ⟨this.1, this.2.1⟩
      · exact ih h0
  exact hgo priorityStatuses h

/-- Witness for C10: on a store whose highest tier holds only an
    epic-level key, the selection skips it and returns the story key with
    its stored status. -/
theorem next_actionable_shape_witness :
    storyKeyMatch "1-2-foo" = true ∧ ("1-2-foo", "review") ∈ demoDev :=
  @next_actionable_shape demoDev "1-2-foo" "review" (by decide)

end RunStories
